import Mathlib

/-! # Verification of the agentic-rag-chatbot retrieval core

Shallow embedding of the repository's retrieval pipeline:
* `src/core/document_parser.py` — the chunker (`_create_chunks`) and per-file parsing
* `src/core/mcp_protocol.py` — the in-memory message bus (`send_message`, `receive_message`)
* `src/core/vector_store.py` — the FAISS-backed vector store (`add_documents`, `search`, `clear`)
* `src/agents/*.py`, `src/main.py` — ingestion / retrieval / response agents and the coordinator

Python strings are modelled as Lean `String` (with helper functions on `List Char`
reproducing Python's `str.split()` / `str.strip()` / `' '.join` semantics),
machine floats as exact rationals, fallible calls as `Except`, and external
collaborators (file parsing, the sentence-transformer embedding model, the LLM)
as explicit function parameters.
-/

deriving instance DecidableEq for Except

/-! ## Python string primitives -/

/-- Python `str.split()` on a character list: split on runs of whitespace,
dropping empty pieces. -/
def pySplit : List Char → List (List Char)
  | [] => []
  | [c] => if c.isWhitespace then [] else [[c]]
  | c :: d :: rest =>
    if c.isWhitespace then pySplit (d :: rest)
    else if d.isWhitespace then [c] :: pySplit rest
    else
      match pySplit (d :: rest) with
      | [] => [[c]]
      | t :: ts => (c :: t) :: ts

/-- Python `str.strip()`: drop whitespace characters from both ends. -/
def pyStrip (l : List Char) : List Char :=
  ((l.dropWhile (·.isWhitespace)).reverse.dropWhile (·.isWhitespace)).reverse

/-- Python `' '.join(words)`: concatenate with a single space separator. -/
def pyJoin : List (List Char) → List Char
  | [] => []
  | [t] => t
  | t :: u :: ts => t ++ ' ' :: pyJoin (u :: ts)

/-- Python `range(0, n, step)` for a positive step: `0, step, 2*step, ...` below `n`. -/
def pyRangeUp (n step : Nat) : List Nat :=
  (List.range ((n + step - 1) / step)).map (· * step)

/-- Ceiling division `ceil(a / b)` on naturals (for `b > 0`). -/
def ceilDiv (a b : Nat) : Nat := (a + b - 1) / b

/-! ## Chunker — `DocumentParser._create_chunks` (src/core/document_parser.py) -/

/-- Model of `DocumentParser._create_chunks(content, chunk_size=500, overlap=50)`.

Mirrors the Python body line by line: if `content.strip()` is falsy return `[]`;
otherwise `words = content.split()` and for `i in range(0, len(words), chunk_size - overlap)`
join `words[i:i+chunk_size]` with spaces and append the stripped chunk when non-empty.
Python `range` semantics for the stride `chunk_size - overlap`: a zero step raises
`ValueError` (modelled as `Except.error`), a negative step yields an empty range
(the loop body never runs). -/
def create_chunks (content : String) (chunk_size : Nat := 500) (overlap : Nat := 50) :
    Except String (List String) :=
  if pyStrip content.toList = [] then .ok []
  else if (chunk_size : Int) - (overlap : Int) = 0 then
    .error "range() arg 3 must not be zero"
  else if (chunk_size : Int) - (overlap : Int) < 0 then .ok []
  else .ok <|
    (pyRangeUp (pySplit content.toList).length
        ((chunk_size : Int) - (overlap : Int)).toNat).filterMap fun i =>
      if pyStrip (pyJoin (((pySplit content.toList).drop i).take chunk_size)) = [] then none
      else some (String.mk (pyStrip (pyJoin (((pySplit content.toList).drop i).take chunk_size))))

/-! ## Message bus — `MCPProtocol` (src/core/mcp_protocol.py) -/

/-- Model of `MCPMessage`: the envelope structure, generic in the payload type
(Python uses an untyped `Dict[str, Any]`). -/
structure MCPMessage (α : Type) where
  sender : String
  receiver : String
  type : String
  trace_id : String
  timestamp : String
  payload : α
  deriving Repr, DecidableEq

/-- Model of `MCPProtocol`: the live queue plus the append-only history. -/
structure MCPProtocol (α : Type) where
  message_queue : List (MCPMessage α)
  message_history : List (MCPMessage α)
  deriving Repr, DecidableEq

/-- Fresh bus, as built by `MCPProtocol.__init__`. -/
def MCPProtocol.empty (α : Type) : MCPProtocol α := ⟨[], []⟩

/-- Model of `MCPProtocol.send_message`. The trace id (either caller-supplied or produced by
`generate_trace_id()`, a uuid) and the `datetime.now()` timestamp are external
inputs, threaded as parameters. Appends the envelope to the history and the queue
and returns the trace id used. -/
def send_message (st : MCPProtocol α) (sender receiver message_type : String)
    (payload : α) (trace_id timestamp : String) : String × MCPProtocol α :=
  let message : MCPMessage α :=
    ⟨sender, receiver, message_type, trace_id, timestamp, payload⟩
  (trace_id, ⟨st.message_queue ++ [message], st.message_history ++ [message]⟩)

/-- The scan inside `MCPProtocol.receive_message`: find the first queued envelope
whose `receiver` matches, remove it (`self.message_queue.pop(i)`) and return it
together with the remaining queue. -/
def popFirst (agent_name : String) :
    List (MCPMessage α) → Option (MCPMessage α) × List (MCPMessage α)
  | [] => (none, [])
  | m :: rest =>
    if m.receiver = agent_name then (some m, rest)
    else
      let r := popFirst agent_name rest
      (r.1, m :: r.2)

/-- Model of `MCPProtocol.receive_message(agent_name)`: pop the earliest envelope addressed
to `agent_name`, or return `none` leaving the queue untouched. -/
def receive_message (st : MCPProtocol α) (agent_name : String) :
    Option (MCPMessage α) × MCPProtocol α :=
  let r := popFirst agent_name st.message_queue
  (r.1, { st with message_queue := r.2 })

/-- Model of `MCPProtocol.clear_queue`: empty the live queue only. -/
def clear_queue (st : MCPProtocol α) : MCPProtocol α :=
  { st with message_queue := [] }

/-- Repeatedly call `receive_message` for one agent until it returns `none`,
collecting the returned envelopes; fuel-indexed (each successful receive shortens
the queue, so queue length is always enough fuel). -/
def drainFuel (agent_name : String) : Nat → MCPProtocol α → List (MCPMessage α)
  | 0, _ => []
  | f + 1, st =>
    match (receive_message st agent_name).1 with
    | none => []
    | some m => m :: drainFuel agent_name f (receive_message st agent_name).2

/-- The full sequence of envelopes successive `receive_message` calls hand to
`agent_name`, starting from state `st`. -/
def receiveAll (st : MCPProtocol α) (agent_name : String) : List (MCPMessage α) :=
  drainFuel agent_name st.message_queue.length st

/-- Run a sequence of `send_message` calls (with the field values of the given
envelopes) against a fresh bus. -/
def sendAll (msgs : List (MCPMessage α)) : MCPProtocol α :=
  msgs.foldl
    (fun st m => (send_message st m.sender m.receiver m.type m.payload m.trace_id m.timestamp).2)
    (MCPProtocol.empty α)

/-! ## Documents (src/core/document_parser.py return dicts) -/

/-- Per-document metadata. The Python code stores an untyped dict whose shape
varies by format (`{'format': ..., 'pages'/'slides'/...}` on success,
`{'error': msg}` on failure); only the success/error distinction matters to the
pipeline, so format-specific detail is one string plus one count. -/
inductive DocMeta where
  | info (format : String) (detail : Nat)
  | err (msg : String)
  deriving Repr, DecidableEq

/-- The dict returned by `DocumentParser.parse_document` /
`IngestionAgent` for one file: filename, raw content, chunk list, metadata. -/
structure ParsedDoc where
  filename : String
  content : String
  chunks : List String
  metadata : DocMeta
  deriving Repr, DecidableEq

/-! ## Vector store — `VectorStore` (src/core/vector_store.py) -/

/-- An embedding row: machine floats modelled as exact rationals. -/
abbrev Vec := List ℚ

/-- Inner product of two rows (what FAISS `IndexFlatIP` scores with). -/
def dot (u v : Vec) : ℚ := (List.zipWith (· * ·) u v).sum

/-- Metadata stored per chunk by `VectorStore.add_documents`. -/
structure ChunkMeta where
  filename : String
  chunk_id : Nat
  doc_metadata : DocMeta
  chunk_text : String
  deriving Repr, DecidableEq

instance : Inhabited ChunkMeta := ⟨⟨"", 0, .err "", ""⟩⟩

/-- The `chunk[:100] + "..."` preview stored in chunk metadata. -/
def chunkPreview (chunk : String) : String :=
  if chunk.length > 100 then chunk.take 100 ++ "..." else chunk

/-- Model of the `VectorStore` state: the FAISS index rows plus the parallel `chunks` and
`metadata` lists. -/
structure VectorStore where
  index : List Vec
  chunks : List String
  metadata : List ChunkMeta
  deriving Repr, DecidableEq

/-- A fresh store (`VectorStore.__init__`). -/
def VectorStore.emptyStore : VectorStore := ⟨[], [], []⟩

/-- The `(chunk, chunk_metadata)` pairs one document contributes inside the
`for i, chunk in enumerate(chunks)` loop of `add_documents`. -/
def docPairs (doc : ParsedDoc) : List (String × ChunkMeta) :=
  doc.chunks.enum.map fun ic =>
    (ic.2, ⟨doc.filename, ic.1, doc.metadata, chunkPreview ic.2⟩)

/-- Model of `VectorStore.add_documents(documents)`.

`E` is the external sentence-transformer model composed with the in-code L2
normalization (`model.encode` followed by `v / ||v||`): exact square roots do
not exist in `ℚ`, so the composite embed-and-normalize step is one abstract
function; none of the properties proved here depend on the embedding values.
Collects every chunk and its metadata across the batch, and — only when at
least one chunk exists (`if all_chunks:`) — appends embeddings to the index and
the chunk/metadata lists to the parallel stores. -/
def add_documents (E : String → Vec) (vs : VectorStore) (documents : List ParsedDoc) :
    VectorStore :=
  let pairs := (documents.map docPairs).flatten
  let all_chunks := pairs.map Prod.fst
  let all_metadata := pairs.map Prod.snd
  if all_chunks = [] then vs
  else
    { index := vs.index ++ all_chunks.map E
      chunks := vs.chunks ++ all_chunks
      metadata := vs.metadata ++ all_metadata }

/-- FAISS's `-FLT_MAX` sentinel score used to pad results when `k` exceeds the
number of stored rows: `(2 - 2^-23) * 2^127`. -/
def fltMax : ℚ := (2 - (1 : ℚ) / 2 ^ 23) * 2 ^ 127

/-- Model of `faiss.IndexFlatIP.search(query, k)` over the stored rows: score every row by
inner product with the query, return `k` `(score, label)` pairs — the stored rows
ranked by descending score (ties by ascending row id, the stable order a flat
index scan produces), padded with `(-FLT_MAX, -1)` entries when `k` exceeds the
row count. -/
def faissSearch (rows : List Vec) (qv : Vec) (k : Nat) : List (ℚ × Int) :=
  let n := rows.length
  let score := fun i => dot qv (rows.getD i [])
  let order := (List.range n).insertionSort fun i j =>
    score j < score i ∨ (score i = score j ∧ i ≤ j)
  (order.take k).map (fun i => (score i, (i : Int))) ++
    List.replicate (k - n) (-fltMax, (-1 : Int))

/-- Python list subscript with an `Int` index: negative indices count from the
end (`l[-1]` is the last element). -/
def pyGet (l : List β) (i : Int) (d : β) : β :=
  if i < 0 then l.getD (l.length - (-i).toNat) d else l.getD i.toNat d

/-- One entry of the result list built by `VectorStore.search`. -/
structure SearchResult where
  chunk : String
  metadata : ChunkMeta
  score : ℚ
  deriving Repr, DecidableEq

/-- Model of `VectorStore.search(query, top_k=5)`.

Empty index returns `[]`. Otherwise embed the query (same `E` as for documents),
run the FAISS search, and keep each `(score, idx)` pair passing the
`if idx < len(self.chunks)` guard — note Python's semantics: the guard also
passes FAISS's `-1` padding labels, and `self.chunks[idx]` then indexes from the
end of the list. -/
def VectorStore.search (E : String → Vec) (vs : VectorStore) (query : String)
    (top_k : Nat := 5) : List SearchResult :=
  if vs.index.length = 0 then []
  else
    let qv := E query
    let out := faissSearch vs.index qv top_k
    out.filterMap fun si =>
      if si.2 < (vs.chunks.length : Int) then
        some ⟨pyGet vs.chunks si.2 "", pyGet vs.metadata si.2 default, si.1⟩
      else none

/-- Model of `VectorStore.clear()`: rebuild an empty index and empty both parallel lists. -/
def VectorStore.clear (_vs : VectorStore) : VectorStore := ⟨[], [], []⟩

/-- One operation against the vector store, for stating state invariants over
arbitrary operation sequences. -/
inductive StoreOp where
  | add (documents : List ParsedDoc)
  | search (query : String) (top_k : Nat)
  | clear

/-- State effect of one `StoreOp` (`search` reads but never writes the store). -/
def applyOp (E : String → Vec) (vs : VectorStore) : StoreOp → VectorStore
  | .add documents => add_documents E vs documents
  | .search _ _ => vs
  | .clear => vs.clear

/-! ## Document parsing — `DocumentParser.parse_document` + `IngestionAgent` -/

/-- Model of `os.path.basename` / the `pathlib` name: the part after the last `/`. -/
def pyBasename (p : String) : String := (p.splitOn "/").getLastD ""

/-- Model of `pathlib.Path.suffix`: the final extension of the last path component,
including the dot; empty when the name (past its first character) has no dot. -/
def pySuffix (p : String) : String :=
  let name := pyBasename p
  if (name.drop 1).contains '.' then "." ++ (name.splitOn ".").getLastD "" else ""

/-- The set `DocumentParser.supported_formats`. -/
def supported_formats : List String := [".pdf", ".pptx", ".docx", ".csv", ".txt", ".md"]

/-- Model of `DocumentParser.parse_document(file_path)`.

`extract` is the external world behind the format-specific `_parse_*` helpers
(file IO, PyPDF2, python-pptx, python-docx, pandas): for a path it either
produces the parsed-document dict those helpers return, or raises (an
`Except.error` carrying the exception text). The extension check happens
*before* the `try` block, so an unsupported format raises `ValueError` out of
the function; any exception inside the `try` is converted to a zero-chunk
error document. -/
def parse_document (extract : String → Except String ParsedDoc) (file_path : String) :
    Except String ParsedDoc :=
  if (pySuffix file_path).toLower ∉ supported_formats then
    .error ("Unsupported file format: " ++ (pySuffix file_path).toLower)
  else
    match extract file_path with
    | .ok doc => .ok doc
    | .error e =>
        .ok ⟨pyBasename file_path, "Error parsing document: " ++ e, [], .err e⟩

/-- The per-file body of `IngestionAgent.process_documents`: parse the file, and
on any exception append the `{'filename', 'content': "Error: ...", 'chunks': [],
'metadata': {'error': ...}}` fallback document instead. -/
def processOne (extract : String → Except String ParsedDoc) (file_path : String) :
    ParsedDoc :=
  match parse_document extract file_path with
  | .ok d => d
  | .error e => ⟨pyBasename file_path, "Error: " ++ e, [], .err e⟩

/-! ## Agent pipeline payloads and results -/

/-- A retrieved chunk as packaged by `RetrievalAgent.search_documents` into the
`CONTEXT_RESPONSE` payload. -/
structure ChunkInfo where
  text : String
  filename : String
  score : ℚ
  chunk_id : Nat
  deriving Repr, DecidableEq

/-- One cited source in the final answer (`LLMResponseAgent.generate_response`). -/
structure Source where
  filename : String
  chunk_id : Nat
  score : ℚ
  preview : String
  deriving Repr, DecidableEq

/-- The answer dict returned by the coordinator / LLM agent. The Python dicts
carry different key sets per branch; absent keys are `none`. -/
structure AnswerResult where
  answer : String
  sources : List Source
  query : Option String := none
  context_used : Option Nat := none
  error : Option String := none
  deriving Repr, DecidableEq

/-- Envelope payloads: the Python code passes untyped dicts whose shape is fixed
by the message `type`; each shape is one variant here (senders always pair the
matching `type` string with its variant). -/
inductive Payload where
  | ingestionComplete (processed_documents : List ParsedDoc)
      (total_documents : Nat) (total_chunks : Nat)
  | retrievalReady (status : String) (total_chunks : Nat)
  | contextResponse (retrieved_context : List ChunkInfo) (query : String)
      (total_results : Nat)
  | responseComplete (data : AnswerResult)
  | responseError (data : AnswerResult)
  deriving Repr, DecidableEq

/-- Pipeline state shared by the coordinator and its agents
(`CoordinatorAgent.documents_processed`, `RetrievalAgent.is_initialized` and its
`VectorStore`, plus the global `mcp` bus). -/
structure RagSystem where
  documents_processed : Bool
  is_initialized : Bool
  store : VectorStore
  bus : MCPProtocol Payload
  deriving Repr, DecidableEq

/-! ## IngestionAgent (src/agents/ingestion_agent.py) -/

/-- Model of `IngestionAgent.process_documents(file_paths, trace_id)`: parse every file
(never aborting the batch on a per-file failure), then send one
`INGESTION_COMPLETE` envelope to the RetrievalAgent; returns the processed
document list alongside the updated bus. -/
def process_documents (extract : String → Except String ParsedDoc)
    (file_paths : List String) (trace_id timestamp : String)
    (bus : MCPProtocol Payload) : List ParsedDoc × MCPProtocol Payload :=
  let processed_docs := file_paths.map (processOne extract)
  let bus' := (send_message bus "IngestionAgent" "RetrievalAgent" "INGESTION_COMPLETE"
    (.ingestionComplete processed_docs processed_docs.length
      (processed_docs.map (fun d => d.chunks.length)).sum)
    trace_id timestamp).2
  (processed_docs, bus')

/-! ## RetrievalAgent (src/agents/retrieval_agent.py) -/

/-- Model of `RetrievalAgent.search_documents(query, top_k, trace_id)`: if the store is
not initialized return without searching or sending; otherwise search, package
the results as `ChunkInfo`s and — when a trace id was supplied — send them to
the LLMResponseAgent as a `CONTEXT_RESPONSE` envelope. Returns the retrieved
chunks and the updated system state. -/
def search_documents (E : String → Vec) (sys : RagSystem) (query : String)
    (top_k : Nat) (trace_id : Option String) (timestamp : String) :
    List ChunkInfo × RagSystem :=
  if sys.is_initialized = false then ([], sys)
  else
    let results := sys.store.search E query top_k
    let retrieved_chunks := results.map fun r =>
      (⟨r.chunk, r.metadata.filename, r.score, r.metadata.chunk_id⟩ : ChunkInfo)
    match trace_id with
    | some tid =>
        (retrieved_chunks,
          { sys with
            bus := (send_message sys.bus "RetrievalAgent" "LLMResponseAgent"
              "CONTEXT_RESPONSE"
              (.contextResponse retrieved_chunks query retrieved_chunks.length)
              tid timestamp).2 })
    | none => (retrieved_chunks, sys)

/-! ## LLMResponseAgent (src/agents/llm_response_agent.py) -/

/-- Python `str.strip()` on a `String`. -/
def pyStripStr (s : String) : String := String.mk (pyStrip s.toList)

/-- Decimal rendering of a similarity score (`f"{score:.3f}"`); the exact float
formatting is irrelevant to every property proved here. -/
def fmtScore (q : ℚ) : String := toString q

/-- The per-chunk source entry (`chunk[:150]` preview) built in
`generate_response`. -/
def mkSource (c : ChunkInfo) : Source :=
  ⟨c.filename, c.chunk_id,  c.score,
    if c.text.length > 150 then c.text.take 150 ++ "..." else c.text⟩

/-- The context block interpolated into the prompt. -/
def contextText (ctx : List ChunkInfo) : String :=
  String.join (ctx.map fun c =>
    "Document: " ++ c.filename ++ "\n" ++ "Content: " ++ c.text ++ "\n" ++
    "Relevance Score: " ++ fmtScore c.score ++ "\n\n")

/-- The fixed instructional prompt template of `generate_response`. -/
def buildPrompt (ctx : List ChunkInfo) (query : String) : String :=
  "You are a helpful AI assistant that answers questions based on provided document context.\n\n" ++
  "Context from documents:\n" ++ contextText ctx ++ "\n\nUser Question: " ++ query ++
  "\n\nInstructions:\n1. Answer the question based ONLY on the provided context\n" ++
  "2. Be specific and cite which documents you are referencing\n" ++
  "3. If the context does not contain enough information to answer the question, say so\n" ++
  "4. Provide a clear, concise, and helpful response\n" ++
  "5. Do not make up information not present in the context\n\nAnswer:"

/-- The "couldn't retrieve relevant information" result returned when no
`CONTEXT_RESPONSE` envelope is available. -/
def noContextResult : AnswerResult :=
  { answer := "I apologize, but I couldn't retrieve relevant information to answer your question.",
    sources := [], error := some "No context available" }

/-- Model of `LLMResponseAgent.generate_response(query, trace_id)`.

`llm` is the external Gemini streaming call: prompt in, either the concatenated
response text or a raised exception (`Except.error`). Receives one envelope for
`"LLMResponseAgent"`; if none arrived or its type is not `CONTEXT_RESPONSE`, a
"no context available" result is returned (the envelope, if any, stays
consumed). Otherwise the sources list is built from the retrieved chunks, the
LLM is invoked, and either `RESPONSE_COMPLETE` (with the answer) or
`RESPONSE_ERROR` (answer text is the error message, sources still attached) is
sent back to the coordinator and the same payload returned. -/
def generate_response (llm : String → Except String String)
    (bus : MCPProtocol Payload) (query trace_id timestamp : String) :
    AnswerResult × MCPProtocol Payload :=
  match (receive_message bus "LLMResponseAgent").1 with
  | none => (noContextResult, (receive_message bus "LLMResponseAgent").2)
  | some message =>
    if message.type ≠ "CONTEXT_RESPONSE" then
      (noContextResult, (receive_message bus "LLMResponseAgent").2)
    else match message.payload with
    | .contextResponse retrieved_context _ _ =>
      let sources := retrieved_context.map mkSource
      let prompt := buildPrompt retrieved_context query
      match llm prompt with
      | .ok response_text =>
        let response_data : AnswerResult :=
          { answer := pyStripStr response_text, sources := sources,
            query := some query, context_used := some retrieved_context.length }
        (response_data,
          (send_message (receive_message bus "LLMResponseAgent").2
            "LLMResponseAgent" "CoordinatorAgent" "RESPONSE_COMPLETE"
            (.responseComplete response_data) trace_id timestamp).2)
      | .error e =>
        let error_response : AnswerResult :=
          { answer := "I apologize, but I encountered an error while generating the response: " ++ e,
            sources := sources, error := some e }
        (error_response,
          (send_message (receive_message bus "LLMResponseAgent").2
            "LLMResponseAgent" "CoordinatorAgent" "RESPONSE_ERROR"
            (.responseError error_response) trace_id timestamp).2)
    | _ => (noContextResult, (receive_message bus "LLMResponseAgent").2)

/-! ## CoordinatorAgent (src/main.py) -/

/-- The synchronous rejection dict of `CoordinatorAgent.answer_question` when
`documents_processed` is still false. -/
def notReadyResult : AnswerResult :=
  { answer := "Please upload and process documents first before asking questions.",
    sources := [], error := some "No documents processed" }

/-- Model of `CoordinatorAgent.answer_question(query)`: reject synchronously when no
document batch has been processed; otherwise run retrieval (which posts
`CONTEXT_RESPONSE` to the bus) followed by LLM response generation. -/
def answer_question (E : String → Vec) (llm : String → Except String String)
    (sys : RagSystem) (query trace_id timestamp : String) :
    AnswerResult × RagSystem :=
  if sys.documents_processed = false then (notReadyResult, sys)
  else
    let sys1 := (search_documents E sys query 5 (some trace_id) timestamp).2
    let r := generate_response llm sys1.bus query trace_id timestamp
    (r.1, { sys1 with bus := r.2 })

/-! ## Spec-side predicates and concrete fixtures -/

/-- The §3 `IndexEntry` invariant: the embedding store, chunk list and metadata
list always have equal length, and the metadata entry at row offset `i`
describes the chunk stored at row offset `i` (its preview text is the preview of
that chunk). -/
def storeInvariant (vs : VectorStore) : Prop :=
  vs.index.length = vs.chunks.length ∧
  vs.metadata.length = vs.chunks.length ∧
  ∀ i : Nat, vs.metadata[i]?.map ChunkMeta.chunk_text = vs.chunks[i]?.map chunkPreview

/-- A deterministic stand-in embedding model for concrete evaluations. -/
def oneE : String → Vec := fun _ => [1]

/-- A store holding exactly one chunk (`"a"` from `f.txt`). -/
def oneStore : VectorStore :=
  add_documents oneE VectorStore.emptyStore [⟨"f.txt", "a", ["a"], .info "txt" 1⟩]

/-- A freshly constructed pipeline: nothing ingested, nothing on the bus. -/
def sysIdle : RagSystem :=
  ⟨false, false, VectorStore.emptyStore, MCPProtocol.empty Payload⟩

/-- A two-envelope bus queue (one for `"B"`, then one for `"A"` of type `"T2"`),
for concrete receive tests. -/
def busTwo : MCPProtocol Nat :=
  ⟨[⟨"s", "B", "T1", "t", "ts", 1⟩, ⟨"s", "A", "T2", "t", "ts", 2⟩], []⟩

/-- A one-chunk retrieved context. -/
def ctxOne : List ChunkInfo := [⟨"hello world", "f.txt", 1, 0⟩]

/-- A bus whose queue holds one `CONTEXT_RESPONSE` envelope for the
LLMResponseAgent, carrying `ctxOne`. -/
def busCtx : MCPProtocol Payload :=
  ⟨[⟨"RetrievalAgent", "LLMResponseAgent", "CONTEXT_RESPONSE", "t", "ts",
      .contextResponse ctxOne "q" 1⟩], []⟩

/-! # Theorems

First the supporting lemmas about the Python string primitives, the bus queue
scan and the store, then one theorem per claim. -/

/-! ## Chunker lemmas -/

theorem pySplit_sound : ∀ (l : List Char), ∀ t ∈ pySplit l,
    t ≠ [] ∧ ∀ c ∈ t, c.isWhitespace = false
  | [] => by simp [pySplit]
  | [c] => by
    by_cases h : c.isWhitespace
    · simp [pySplit, h]
    · intro t ht
      simp [pySplit, h] at ht
      subst ht
      simp [h]
  | c :: d :: rest => by
    intro t ht
    by_cases h : c.isWhitespace
    · rw [show pySplit (c :: d :: rest) = pySplit (d :: rest) from by
        simp [pySplit, h]] at ht
      exact pySplit_sound (d :: rest) t ht
    · by_cases h2 : d.isWhitespace
      · rw [show pySplit (c :: d :: rest) = [c] :: pySplit rest from by
          simp [pySplit, h, h2]] at ht
        rcases List.mem_cons.mp ht with rfl | ht'
        · simp [h]
        · exact pySplit_sound rest t ht'
      · cases hm : pySplit (d :: rest) with
        | nil =>
          rw [show pySplit (c :: d :: rest) = [[c]] from by
            simp [pySplit, h, h2, hm]] at ht
          simp at ht
          subst ht
          simp [h]
        | cons t0 ts =>
          rw [show pySplit (c :: d :: rest) = (c :: t0) :: ts from by
            simp [pySplit, h, h2, hm]] at ht
          rcases List.mem_cons.mp ht with rfl | ht'
          · refine ⟨by simp, ?_⟩
            intro x hx
            rcases List.mem_cons.mp hx with rfl | hx'
            · simpa using h
            · exact (pySplit_sound (d :: rest) t0 (by simp [hm])).2 x hx'
          · exact pySplit_sound (d :: rest) t (by simp [hm, ht'])

theorem pySplit_eq_nil_iff : ∀ (l : List Char),
    pySplit l = [] ↔ ∀ c ∈ l, c.isWhitespace = true
  | [] => by simp [pySplit]
  | [c] => by by_cases h : c.isWhitespace <;> simp [pySplit, h]
  | c :: d :: rest => by
    by_cases h : c.isWhitespace
    · rw [show pySplit (c :: d :: rest) = pySplit (d :: rest) from by
        simp [pySplit, h]]
      rw [pySplit_eq_nil_iff (d :: rest)]
      simp [h]
    · constructor
      · intro hnil
        exfalso
        by_cases h2 : d.isWhitespace
        · rw [show pySplit (c :: d :: rest) = [c] :: pySplit rest from by
            simp [pySplit, h, h2]] at hnil
          simp at hnil
        · cases hm : pySplit (d :: rest) with
          | nil =>
            rw [show pySplit (c :: d :: rest) = [[c]] from by
              simp [pySplit, h, h2, hm]] at hnil
            simp at hnil
          | cons t0 ts =>
            rw [show pySplit (c :: d :: rest) = (c :: t0) :: ts from by
              simp [pySplit, h, h2, hm]] at hnil
            simp at hnil
      · intro hall
        exact absurd (hall c (by simp)) (by simpa using h)

theorem pyStrip_eq_nil_iff {l : List Char} :
    pyStrip l = [] ↔ ∀ c ∈ l, c.isWhitespace = true := by
  unfold pyStrip
  rw [List.reverse_eq_nil_iff, List.dropWhile_eq_nil_iff]
  constructor
  · intro h c hc
    rw [← List.takeWhile_append_dropWhile (p := fun c => c.isWhitespace) (l := l)] at hc
    rcases List.mem_append.mp hc with h1 | h2
    · exact List.mem_takeWhile_imp h1
    · exact h c (List.mem_reverse.mpr h2)
  · intro h c hc
    exact h c ((List.dropWhile_sublist _).subset (List.mem_reverse.mp hc))

theorem pyStrip_ne_nil {l : List Char} {c : Char} (hc : c ∈ l)
    (hw : c.isWhitespace = false) : pyStrip l ≠ [] := by
  intro h
  rw [pyStrip_eq_nil_iff.mp h c hc] at hw
  exact absurd hw (by simp)

theorem mem_pyJoin_head {c : Char} {t : List Char} (hc : c ∈ t) :
    ∀ (ts : List (List Char)), c ∈ pyJoin (t :: ts)
  | [] => by simpa [pyJoin] using hc
  | u :: us => by simp [pyJoin, hc]

theorem pyRangeUp_length (n s : Nat) : (pyRangeUp n s).length = (n + s - 1) / s := by
  simp [pyRangeUp]

theorem pyRangeUp_mem_lt {n s i : Nat} (hs : 0 < s) (hi : i ∈ pyRangeUp n s) :
    i < n := by
  unfold pyRangeUp at hi
  simp only [List.mem_map, List.mem_range] at hi
  obtain ⟨k, hk, rfl⟩ := hi
  have h1 : ((n + s - 1) / s) * s ≤ n + s - 1 := Nat.div_mul_le_self _ _
  have h2 : (k + 1) * s ≤ ((n + s - 1) / s) * s := Nat.mul_le_mul_right _ hk
  have h3 : k * s + s ≤ n + s - 1 := by
    calc k * s + s = (k + 1) * s := by ring
    _ ≤ ((n + s - 1) / s) * s := h2
    _ ≤ n + s - 1 := h1
  have h4 : k * s + s ≤ n + s - 1 := h3
  generalize k * s = a at h4 ⊢
  omega

theorem length_filterMap_of_forall_isSome {β γ : Type} {f : β → Option γ} :
    ∀ {l : List β}, (∀ a ∈ l, (f a).isSome) → (l.filterMap f).length = l.length
  | [], _ => rfl
  | a :: l, h => by
    cases hfa : f a with
    | none =>
      have := h a (by simp)
      rw [hfa] at this
      simp at this
    | some b =>
      rw [List.filterMap_cons_some hfa]
      simp only [List.length_cons]
      rw [length_filterMap_of_forall_isSome (fun x hx => h x (by simp [hx]))]

theorem window_head {words : List (List Char)} {i cs : Nat}
    (hi : i < words.length) (hcs : 0 < cs) :
    ∃ t ts, (words.drop i).take cs = t :: ts ∧ t ∈ words := by
  have hd : words.drop i ≠ [] := by
    rw [Ne, List.drop_eq_nil_iff]
    omega
  obtain ⟨t, rest, hcons⟩ := List.exists_cons_of_ne_nil hd
  obtain ⟨c', rfl⟩ : ∃ c', cs = c' + 1 := ⟨cs - 1, by omega⟩
  refine ⟨t, rest.take c', ?_, ?_⟩
  · rw [hcons, List.take_succ_cons]
  · exact List.drop_subset i words (hcons ▸ List.mem_cons_self t rest)

theorem create_chunks_length_core (words : List (List Char)) (cs s : Nat)
    (hsound : ∀ t ∈ words, t ≠ [] ∧ ∀ c ∈ t, c.isWhitespace = false)
    (hs : 0 < s) (hcs : 0 < cs) :
    ((pyRangeUp words.length s).filterMap fun i =>
      if pyStrip (pyJoin ((words.drop i).take cs)) = [] then none
      else some (String.mk (pyStrip (pyJoin ((words.drop i).take cs))))).length
      = (words.length + s - 1) / s := by
  rw [length_filterMap_of_forall_isSome, pyRangeUp_length]
  intro i hi
  have hilt : i < words.length := pyRangeUp_mem_lt hs hi
  obtain ⟨t, ts, hwin, htmem⟩ := window_head hilt hcs
  obtain ⟨hne', hch⟩ := hsound t htmem
  obtain ⟨a, t', rfl⟩ := List.exists_cons_of_ne_nil hne'
  have hstrip : pyStrip (pyJoin ((words.drop i).take cs)) ≠ [] := by
    rw [hwin]
    exact pyStrip_ne_nil (mem_pyJoin_head (by simp) ts) (hch a (by simp))
  simp only [hstrip, ite_false, Option.isSome_some]

/-- Claim C1 (counterexample): for the three-token text `"a b c"` with
`chunkSize = 3 > overlap = 1` the code produces 2 chunks (`["a b c", "c"]`),
while the claimed formula `ceil(max(N - overlap, 1) / (chunkSize - overlap))`
gives 1 — the claimed chunk count is wrong. -/
theorem c1_counterexample :
    (create_chunks "a b c" 3 1).toOption.map List.length = some 2 ∧
    ceilDiv (max ((pySplit "a b c".toList).length - 1) 1) (3 - 1) = 1 := by
  decide

/-- Claim C1 (amended): for every text, with `chunkSize > overlap` the chunker
returns `ceil(N / (chunkSize - overlap))` chunks when the whitespace-split token
count `N` is positive, and 0 chunks when the text is empty or whitespace-only
(token count 0). -/
theorem c1_chunk_count (content : String) (chunk_size overlap : Nat)
    (h : overlap < chunk_size) :
    (create_chunks content chunk_size overlap).map List.length =
      .ok (if (pySplit content.toList).length = 0 then 0
           else ceilDiv (pySplit content.toList).length (chunk_size - overlap)) := by
  unfold create_chunks
  by_cases hws : pyStrip content.toList = []
  · have htok : pySplit content.toList = [] :=
      (pySplit_eq_nil_iff _).mpr (pyStrip_eq_nil_iff.mp hws)
    rw [if_pos hws,
      if_pos (show (pySplit content.toList).length = 0 by rw [htok]; rfl)]
    rfl
  · have hne : pySplit content.toList ≠ [] := fun hnil =>
      hws (pyStrip_eq_nil_iff.mpr ((pySplit_eq_nil_iff _).mp hnil))
    have hlen : 0 < (pySplit content.toList).length := List.length_pos.mpr hne
    have h0 : ¬ ((chunk_size : Int) - (overlap : Int) = 0) := by omega
    have hneg : ¬ ((chunk_size : Int) - (overlap : Int) < 0) := by omega
    have htoNat : ((chunk_size : Int) - (overlap : Int)).toNat = chunk_size - overlap := by
      omega
    rw [if_neg hws, if_neg h0, if_neg hneg, if_neg (by omega)]
    rw [htoNat]
    simp only [Except.map]
    congr 1
    rw [create_chunks_length_core _ _ _ (pySplit_sound content.toList) (by omega) (by omega)]
    rfl

/-- Claim C1 (witness): concrete instance of the amended count — `"a b c"` with
`chunkSize = 3`, `overlap = 1` yields `ceil(3 / 2) = 2` chunks. -/
theorem c1_chunk_count_witness :
    (create_chunks "a b c" 3 1).map List.length = .ok 2 := by
  rw [c1_chunk_count "a b c" 3 1 (by omega)]
  decide

/-- Claim C4 (counterexample): `overlap = 3 ≥ chunkSize = 2` on the non-empty
text `"a b c"` is not rejected: the call silently returns a result (an empty
chunk list, because Python `range` with a negative step is empty). -/
theorem c4_counterexample :
    (2 : Nat) ≤ 3 ∧ create_chunks "a b c" 2 3 = Except.ok [] := by
  refine ⟨by omega, ?_⟩
  unfold create_chunks
  rw [if_neg (by decide), if_neg (by decide), if_pos (by decide)]

/-- Claim C4 (amended): with `overlap ≥ chunkSize` the chunker does not reject
the configuration: when `overlap = chunkSize` (and the text is not
whitespace-only) the zero range step raises `ValueError`, and when
`overlap > chunkSize` (or the text is whitespace-only) the call silently
returns zero chunks. -/
theorem c4_no_config_rejection (content : String) (chunk_size overlap : Nat)
    (h : chunk_size ≤ overlap) :
    create_chunks content chunk_size overlap =
      if pyStrip content.toList = [] then .ok []
      else if chunk_size = overlap then .error "range() arg 3 must not be zero"
      else .ok [] := by
  unfold create_chunks
  by_cases hws : pyStrip content.toList = []
  · rw [if_pos hws, if_pos hws]
  · rw [if_neg hws, if_neg hws]
    by_cases heq : chunk_size = overlap
    · rw [if_pos (by omega : (chunk_size : Int) - (overlap : Int) = 0), if_pos heq]
    · rw [if_neg (by omega : ¬ ((chunk_size : Int) - (overlap : Int) = 0)), if_neg heq,
        if_pos (by omega : (chunk_size : Int) - (overlap : Int) < 0)]

/-- Claim C4 (witness): concrete instance of the amended behavior at
`chunkSize = 2`, `overlap = 3` on `"x y"`. -/
theorem c4_no_config_rejection_witness :
    create_chunks "x y" 2 3 = .ok [] := by
  rw [c4_no_config_rejection "x y" 2 3 (by omega)]
  rw [if_neg (by decide), if_neg (by decide)]

/-! ## Message-bus lemmas -/

theorem popFirst_fst (agent_name : String) :
    ∀ (q : List (MCPMessage α)),
      (popFirst agent_name q).1 =
        (q.filter fun m => decide (m.receiver = agent_name)).head?
  | [] => rfl
  | m :: rest => by
    by_cases h : m.receiver = agent_name
    · simp [popFirst, h]
    · simp only [popFirst, h, ite_false, List.filter_cons, decide_eq_true_eq]
      exact popFirst_fst agent_name rest

theorem popFirst_none (agent_name : String) :
    ∀ (q : List (MCPMessage α)),
      (q.filter fun m => decide (m.receiver = agent_name)) = [] →
      popFirst agent_name q = (none, q)
  | [] => fun _ => rfl
  | m :: rest => by
    intro hfil
    rw [List.filter_cons] at hfil
    by_cases h : m.receiver = agent_name
    · rw [if_pos (by simpa using h)] at hfil
      exact absurd hfil (by simp)
    · rw [if_neg (by simpa using h)] at hfil
      have ih := popFirst_none agent_name rest hfil
      simp [popFirst, h, ih]

theorem popFirst_some (agent_name : String) :
    ∀ (q : List (MCPMessage α)) (m : MCPMessage α),
      (q.filter fun x => decide (x.receiver = agent_name)).head? = some m →
      ∃ pre post, q = pre ++ m :: post ∧
        (∀ x ∈ pre, x.receiver ≠ agent_name) ∧
        popFirst agent_name q = (some m, pre ++ post)
  | [] => by simp
  | a :: rest => by
    intro m hm
    rw [List.filter_cons] at hm
    by_cases h : a.receiver = agent_name
    · rw [if_pos (by simpa using h)] at hm
      simp only [List.head?_cons, Option.some.injEq] at hm
      subst hm
      exact ⟨[], rest, rfl, by simp, by simp [popFirst, h]⟩
    · rw [if_neg (by simpa using h)] at hm
      obtain ⟨pre, post, hq, hpre, hpop⟩ := popFirst_some agent_name rest m hm
      refine ⟨a :: pre, post, by rw [hq]; rfl, ?_, ?_⟩
      · intro x hx
        rcases List.mem_cons.mp hx with rfl | hx'
        · exact h
        · exact hpre x hx'
      · simp [popFirst, h, hpop]

theorem popFirst_snd_filter (agent_name : String) :
    ∀ (q : List (MCPMessage α)),
      ((popFirst agent_name q).2.filter fun m => decide (m.receiver = agent_name)) =
        (q.filter fun m => decide (m.receiver = agent_name)).tail
  | [] => rfl
  | m :: rest => by
    by_cases h : m.receiver = agent_name
    · simp [popFirst, h, List.filter_cons]
    · have ih := popFirst_snd_filter agent_name rest
      simp only [popFirst, h, ite_false]
      rw [List.filter_cons, if_neg (by simpa using h),
        List.filter_cons, if_neg (by simpa using h)]
      exact ih

theorem drainFuel_eq_filter (agent_name : String) :
    ∀ (f : Nat) (st : MCPProtocol α),
      (st.message_queue.filter fun m => decide (m.receiver = agent_name)).length ≤ f →
      drainFuel agent_name f st =
        st.message_queue.filter fun m => decide (m.receiver = agent_name)
  | 0, st => by
    intro hf
    have : (st.message_queue.filter fun m => decide (m.receiver = agent_name)) = [] :=
      List.length_eq_zero.mp (Nat.le_zero.mp hf)
    rw [this]
    rfl
  | f + 1, st => by
    intro hf
    cases hfil : st.message_queue.filter fun m => decide (m.receiver = agent_name) with
    | nil =>
      have hfst : (receive_message st agent_name).1 = none := by
        simp [receive_message, popFirst_fst, hfil]
      simp [drainFuel, hfst]
    | cons c cs =>
      have hfst : (receive_message st agent_name).1 = some c := by
        simp [receive_message, popFirst_fst, hfil]
      have hsnd : ((receive_message st agent_name).2.message_queue.filter
          fun m => decide (m.receiver = agent_name)) = cs := by
        simp only [receive_message]
        rw [popFirst_snd_filter, hfil]
        rfl
      have hlen : ((receive_message st agent_name).2.message_queue.filter
          fun m => decide (m.receiver = agent_name)).length ≤ f := by
        rw [hsnd]
        have := hf
        rw [hfil] at this
        simpa using Nat.lt_succ_iff.mp (Nat.lt_of_lt_of_le (by simp) this)
      have ih := drainFuel_eq_filter agent_name f (receive_message st agent_name).2 hlen
      simp only [drainFuel, hfst]
      rw [ih, hsnd]

theorem receiveAll_eq_filter (agent_name : String) (st : MCPProtocol α) :
    receiveAll st agent_name =
      st.message_queue.filter fun m => decide (m.receiver = agent_name) :=
  drainFuel_eq_filter agent_name _ st (List.length_filter_le _ _)

theorem sendAll_state : ∀ (msgs : List (MCPMessage α)) (st : MCPProtocol α),
    msgs.foldl
      (fun st m =>
        (send_message st m.sender m.receiver m.type m.payload m.trace_id m.timestamp).2)
      st = ⟨st.message_queue ++ msgs, st.message_history ++ msgs⟩
  | [], st => by simp
  | m :: rest, st => by
    rw [List.foldl_cons, sendAll_state rest]
    simp [send_message]

theorem sendAll_queue (msgs : List (MCPMessage α)) :
    (sendAll msgs).message_queue = msgs := by
  unfold sendAll
  rw [sendAll_state]
  rfl

/-- Claim C5: for any sequence of sends against a fresh bus and any fixed
receiver, successive `receive_message` calls return exactly the envelopes
addressed to that receiver, in global send order (regardless of sender); and
when no queued envelope is addressed to the receiver, `receive_message` returns
`none` rather than an error. -/
theorem c5_bus_fifo (α : Type) (msgs : List (MCPMessage α)) (agent_name : String) :
    receiveAll (sendAll msgs) agent_name =
      (msgs.filter fun m => decide (m.receiver = agent_name)) ∧
    ((msgs.filter fun m => decide (m.receiver = agent_name)) = [] →
      (receive_message (sendAll msgs) agent_name).1 = none) := by
  constructor
  · rw [receiveAll_eq_filter, sendAll_queue]
  · intro hnone
    simp only [receive_message]
    rw [popFirst_fst, sendAll_queue, hnone]
    rfl

/-- Claim C5 (witness): concrete run — two envelopes for `"B"` and one for
`"C"` sent interleaved by different senders; `"B"` receives its two in send
order, and a receiver with nothing queued gets `none`. -/
theorem c5_bus_fifo_witness :
    receiveAll (sendAll
      [⟨"s1", "B", "T1", "t", "ts", (1 : Nat)⟩,
       ⟨"s2", "C", "T2", "t", "ts", 2⟩,
       ⟨"s3", "B", "T3", "t", "ts", 3⟩]) "B" =
      [⟨"s1", "B", "T1", "t", "ts", 1⟩, ⟨"s3", "B", "T3", "t", "ts", 3⟩] ∧
    (receive_message (sendAll
      [⟨"s1", "B", "T1", "t", "ts", (1 : Nat)⟩,
       ⟨"s2", "C", "T2", "t", "ts", 2⟩,
       ⟨"s3", "B", "T3", "t", "ts", 3⟩]) "X").1 = none := by
  have h1 := c5_bus_fifo Nat
    [⟨"s1", "B", "T1", "t", "ts", 1⟩, ⟨"s2", "C", "T2", "t", "ts", 2⟩,
     ⟨"s3", "B", "T3", "t", "ts", 3⟩] "B"
  have h2 := c5_bus_fifo Nat
    [⟨"s1", "B", "T1", "t", "ts", 1⟩, ⟨"s2", "C", "T2", "t", "ts", 2⟩,
     ⟨"s3", "B", "T3", "t", "ts", 3⟩] "X"
  exact ⟨by rw [h1.1]; decide, h2.2 (by decide)⟩

/-- Claim C10: `receive_message` removes exactly the earliest queued envelope
addressed to the given agent, regardless of that envelope's `type` (the match is
on `receiver` alone, so a consumer expecting one type permanently consumes
whatever envelope is first); all other envelopes keep their relative order, the
history is untouched, and with no matching envelope the queue is unchanged. -/
theorem c10_receive_frame (α : Type) (st : MCPProtocol α) (agent_name : String) :
    ((st.message_queue.filter fun m => decide (m.receiver = agent_name)) = [] →
      receive_message st agent_name = (none, st)) ∧
    (∀ m : MCPMessage α,
      (st.message_queue.filter fun m => decide (m.receiver = agent_name)).head? = some m →
      ∃ pre post, st.message_queue = pre ++ m :: post ∧
        (∀ x ∈ pre, x.receiver ≠ agent_name) ∧
        receive_message st agent_name =
          (some m, ⟨pre ++ post, st.message_history⟩)) := by
  constructor
  · intro hnil
    simp only [receive_message]
    rw [popFirst_none agent_name _ hnil]
  · intro m hm
    obtain ⟨pre, post, hq, hpre, hpop⟩ := popFirst_some agent_name _ m hm
    exact ⟨pre, post, hq, hpre, by simp only [receive_message]; rw [hpop]⟩

/-- Claim C10 (witness): on `busTwo` (an envelope for `"B"` queued ahead of one
for `"A"` of type `"T2"`), receiving for `"A"` pops exactly its `"T2"` envelope
(whatever its type), and receiving for `"X"` — nothing queued for it — leaves
the state unchanged. -/
theorem c10_receive_frame_witness :
    (receive_message busTwo "A").1 = some ⟨"s", "A", "T2", "t", "ts", 2⟩ ∧
    receive_message busTwo "X" = (none, busTwo) := by
  constructor
  · obtain ⟨pre, post, hq, hpre, hrecv⟩ :=
      (c10_receive_frame Nat busTwo "A").2 ⟨"s", "A", "T2", "t", "ts", 2⟩ (by decide)
    rw [hrecv]
  · exact (c10_receive_frame Nat busTwo "X").1 (by decide)

/-! ## Vector-store lemmas -/

theorem docPairs_chunk_text (doc : ParsedDoc) :
    ∀ p ∈ docPairs doc, p.2.chunk_text = chunkPreview p.1 := by
  intro p hp
  simp only [docPairs, List.mem_map] at hp
  obtain ⟨ic, _, rfl⟩ := hp
  rfl

theorem pairs_chunk_text (documents : List ParsedDoc) :
    ∀ p ∈ (documents.map docPairs).flatten, p.2.chunk_text = chunkPreview p.1 := by
  intro p hp
  rw [List.mem_flatten] at hp
  obtain ⟨l, hl, hpl⟩ := hp
  rw [List.mem_map] at hl
  obtain ⟨doc, _, rfl⟩ := hl
  exact docPairs_chunk_text doc p hpl

theorem add_documents_invariant (E : String → Vec) (vs : VectorStore)
    (documents : List ParsedDoc) (h : storeInvariant vs) :
    storeInvariant (add_documents E vs documents) := by
  obtain ⟨h1, h2, h3⟩ := h
  unfold add_documents
  by_cases hnil : ((documents.map docPairs).flatten.map Prod.fst) = []
  · rw [if_pos hnil]
    exact ⟨h1, h2, h3⟩
  · rw [if_neg hnil]
    refine ⟨?_, ?_, ?_⟩
    · simp only [List.length_append, List.length_map, h1]
    · simp only [List.length_append, List.length_map, h2]
    · intro i
      by_cases hi : i < vs.chunks.length
      · rw [List.getElem?_append, List.getElem?_append,
          if_pos (by omega : i < vs.metadata.length), if_pos hi]
        exact h3 i
      · rw [List.getElem?_append, List.getElem?_append,
          if_neg (by omega : ¬ i < vs.metadata.length), if_neg hi, h2]
        rw [List.getElem?_map, List.getElem?_map]
        cases hp : ((documents.map docPairs).flatten)[i - vs.chunks.length]? with
        | none => simp
        | some p =>
          have hmem : p ∈ (documents.map docPairs).flatten := by
            obtain ⟨hlt, hget⟩ := List.getElem?_eq_some.mp hp
            exact hget ▸ List.getElem_mem hlt
          simp only [Option.map_some']
          rw [pairs_chunk_text documents p hmem]

theorem emptyStore_invariant : storeInvariant VectorStore.emptyStore := by
  refine ⟨rfl, rfl, fun i => rfl⟩

theorem storeInvariant_foldl (E : String → Vec) :
    ∀ (ops : List StoreOp) (vs : VectorStore), storeInvariant vs →
      storeInvariant (ops.foldl (applyOp E) vs)
  | [], _, h => h
  | op :: ops, vs, h => by
    rw [List.foldl_cons]
    apply storeInvariant_foldl E ops
    cases op with
    | add documents => exact add_documents_invariant E vs documents h
    | search q k => exact h
    | clear => exact emptyStore_invariant

/-- Claim C6: after any sequence of store operations (`add_documents`, `search`,
`clear`) from a fresh store, the embedding store, the chunk list and the
metadata list have equal length, and the metadata entry at row offset `i`
describes the chunk stored at row offset `i`. -/
theorem c6_store_parallel_invariant (E : String → Vec) (ops : List StoreOp) :
    storeInvariant (ops.foldl (applyOp E) VectorStore.emptyStore) :=
  storeInvariant_foldl E ops _ emptyStore_invariant

/-- Claim C2 (code evaluation at the failing input): with one stored chunk and
`topK = 2 > 1`, `search` returns two entries — the single stored chunk twice,
because FAISS pads missing results with label `-1`, which passes the
`idx < len(self.chunks)` guard (commented `# Valid index`) and then indexes the
last chunk from the end — not "all entries, each once". The empty-index part of
the claim does hold: a fresh store returns `[]`. -/
theorem c2_search_topk_overflow :
    (VectorStore.search oneE oneStore "q" 2).map SearchResult.chunk = ["a", "a"] ∧
    (VectorStore.search oneE oneStore "q" 2).length = 2 ∧
    oneStore.chunks.length = 1 ∧
    VectorStore.search oneE VectorStore.emptyStore "q" 5 = [] := by
  decide

/-- Claim C3 (code evaluation at the failing input): with index size 1 and
`k = 2` the result has length 2, exceeding `min(k, indexSize) = 1` — the same
`-1`-label pass-through defeats the result-length bound. -/
theorem c3_search_length_exceeds_min :
    (VectorStore.search oneE oneStore "q" 2).length = 2 ∧
    min 2 oneStore.index.length = 1 := by
  decide

/-! ## Pipeline theorems -/

/-- Claim C7: while no document batch has been processed
(`documents_processed = false`), `answer_question` returns the "not ready"
result synchronously, with its `error` field set, and leaves the whole system —
in particular the message bus queue and history — unchanged: nothing reaches
the bus. -/
theorem c7_not_ready_rejected (E : String → Vec) (llm : String → Except String String)
    (sys : RagSystem) (query trace_id timestamp : String)
    (h : sys.documents_processed = false) :
    answer_question E llm sys query trace_id timestamp = (notReadyResult, sys) ∧
    notReadyResult.error = some "No documents processed" ∧
    (answer_question E llm sys query trace_id timestamp).2.bus = sys.bus := by
  have hmain : answer_question E llm sys query trace_id timestamp = (notReadyResult, sys) := by
    unfold answer_question
    rw [if_pos h]
  exact ⟨hmain, rfl, by rw [hmain]⟩

/-- Claim C7 (witness): asking on a freshly constructed pipeline is rejected
with the "not ready" result and the bus untouched. -/
theorem c7_not_ready_rejected_witness :
    answer_question oneE (fun _ => .error "down") sysIdle "q" "t" "ts" =
      (notReadyResult, sysIdle) ∧
    notReadyResult.error = some "No documents processed" ∧
    (answer_question oneE (fun _ => .error "down") sysIdle "q" "t" "ts").2.bus =
      sysIdle.bus :=
  c7_not_ready_rejected oneE (fun _ => .error "down") sysIdle "q" "t" "ts" rfl

/-- Claim C8: in any ingestion batch, a file whose parsing fails — because its
extension is unsupported or because extraction raises — yields a document with
zero chunks whose metadata carries the error message; every file of the batch is
still processed (one output document per input path, in order), and the run
still completes by sending its `INGESTION_COMPLETE` envelope. -/
theorem c8_failed_file_degrades (extract : String → Except String ParsedDoc)
    (file_paths : List String) (trace_id timestamp : String)
    (bus : MCPProtocol Payload) (i : Nat) (p : String)
    (hp : file_paths[i]? = some p)
    (hfail : (pySuffix p).toLower ∉ supported_formats ∨ ∃ e, extract p = .error e) :
    (process_documents extract file_paths trace_id timestamp bus).1.length
      = file_paths.length ∧
    (∃ d, (process_documents extract file_paths trace_id timestamp bus).1[i]? = some d ∧
      d.chunks = [] ∧ ∃ msg, d.metadata = DocMeta.err msg) ∧
    (∃ env, (process_documents extract file_paths trace_id timestamp bus).2.message_queue =
      bus.message_queue ++ [env] ∧ env.type = "INGESTION_COMPLETE") := by
  refine ⟨by simp [process_documents], ?_, ?_⟩
  · have hgot : (process_documents extract file_paths trace_id timestamp bus).1[i]? =
        some (processOne extract p) := by
      simp only [process_documents]
      rw [List.getElem?_map, hp]
      rfl
    refine ⟨processOne extract p, hgot, ?_⟩
    by_cases hext : (pySuffix p).toLower ∈ supported_formats
    · rcases hfail with hunsup | ⟨e, he⟩
      · exact absurd hext hunsup
      · have hpd : parse_document extract p =
            .ok ⟨pyBasename p, "Error parsing document: " ++ e, [], .err e⟩ := by
          unfold parse_document
          rw [if_neg (not_not_intro hext), he]
        unfold processOne
        rw [hpd]
        exact ⟨rfl, e, rfl⟩
    · have hpd : parse_document extract p =
          .error ("Unsupported file format: " ++ (pySuffix p).toLower) := by
        unfold parse_document
        rw [if_pos hext]
      unfold processOne
      rw [hpd]
      exact ⟨rfl, "Unsupported file format: " ++ (pySuffix p).toLower, rfl⟩
  · exact ⟨_, rfl, rfl⟩

/-- Claim C8 (witness): a one-file batch whose extraction raises `"io failure"`
is recorded as a zero-chunk error document, the batch completes and the
`INGESTION_COMPLETE` envelope is still sent. -/
theorem c8_failed_file_degrades_witness :
    (process_documents (fun _ => .error "io failure") ["doc.txt"] "t" "ts"
      (MCPProtocol.empty Payload)).1.length = (["doc.txt"] : List String).length ∧
    (∃ d, (process_documents (fun _ => .error "io failure") ["doc.txt"] "t" "ts"
        (MCPProtocol.empty Payload)).1[0]? = some d ∧
      d.chunks = [] ∧ ∃ msg, d.metadata = DocMeta.err msg) ∧
    (∃ env, (process_documents (fun _ => .error "io failure") ["doc.txt"] "t" "ts"
        (MCPProtocol.empty Payload)).2.message_queue =
      (MCPProtocol.empty Payload).message_queue ++ [env] ∧
      env.type = "INGESTION_COMPLETE") :=
  c8_failed_file_degrades (fun _ => .error "io failure") ["doc.txt"] "t" "ts"
    (MCPProtocol.empty Payload) 0 "doc.txt" rfl
    (Or.inr ⟨"io failure", rfl⟩)

/-- Claim C9: when the LLM call fails, `generate_response` still returns the
full cited-source list built from the retrieved context chunks, with the
`answer` field carrying the error message and the `error` field set. -/
theorem c9_generation_failure_keeps_sources
    (llm : String → Except String String) (bus : MCPProtocol Payload)
    (query trace_id timestamp : String) (message : MCPMessage Payload)
    (ctx : List ChunkInfo) (q0 : String) (n0 : Nat) (e : String)
    (hrecv : (receive_message bus "LLMResponseAgent").1 = some message)
    (htype : message.type = "CONTEXT_RESPONSE")
    (hpayload : message.payload = .contextResponse ctx q0 n0)
    (hllm : llm (buildPrompt ctx query) = .error e) :
    (generate_response llm bus query trace_id timestamp).1.sources = ctx.map mkSource ∧
    (generate_response llm bus query trace_id timestamp).1.error = some e ∧
    (generate_response llm bus query trace_id timestamp).1.answer =
      "I apologize, but I encountered an error while generating the response: " ++ e := by
  have hg : (generate_response llm bus query trace_id timestamp).1 =
      { answer := "I apologize, but I encountered an error while generating the response: " ++ e,
        sources := ctx.map mkSource, error := some e } := by
    simp only [generate_response, hrecv]
    rw [if_neg (not_not_intro htype), hpayload]
    simp only [hllm]
  exact ⟨by rw [hg], by rw [hg], by rw [hg]⟩

/-- Claim C9 (witness): a failing LLM (`"rate limit"`) on a queued one-chunk
context still yields the full source list with the error recorded. -/
theorem c9_generation_failure_keeps_sources_witness :
    (generate_response (fun _ => .error "rate limit") busCtx "q" "t" "ts").1.sources =
      ctxOne.map mkSource ∧
    (generate_response (fun _ => .error "rate limit") busCtx "q" "t" "ts").1.error =
      some "rate limit" ∧
    (generate_response (fun _ => .error "rate limit") busCtx "q" "t" "ts").1.answer =
      "I apologize, but I encountered an error while generating the response: " ++
        "rate limit" :=
  c9_generation_failure_keeps_sources (fun _ => .error "rate limit") busCtx "q" "t" "ts"
    ⟨"RetrievalAgent", "LLMResponseAgent", "CONTEXT_RESPONSE", "t", "ts",
      .contextResponse ctxOne "q" 1⟩
    ctxOne "q" 1 "rate limit" (by decide) rfl rfl rfl

